import Mathlib

/-!
Verification of the `sky` chat client (`src/lib.rs`, `src/config.rs`, `src/main.rs`).

The program keeps an utterance history `c : Vec<String>` alternating user and
assistant entries, renders it into a prompt (`dialogue` / `as_prompt`), and on
each `say` call appends the utterance, sends one HTTP request with fixed
sampling parameters, trims the first returned choice, and appends that reply.
`ReportingToFile` decorates `say` with transcript writes to a file, ignoring
write errors.  We embed the data model and operations below; effects are made
explicit: the HTTP response is an oracle argument, panics become `Option.none`,
the request actually sent over the network is returned as a trace component,
and file writes carry success flags as oracle arguments.
-/

namespace Sky

/-- Embedding of Rust `str::trim` as used in `impl Display for AIResponse`:
remove leading and trailing whitespace characters (whitespace modelled by
`Char.isWhitespace`). -/
def rustTrim (s : String) : String :=
  ⟨((s.data.dropWhile Char.isWhitespace).reverse.dropWhile Char.isWhitespace).reverse⟩

/-- Rust `struct Choice { text: String }` from `src/lib.rs`. -/
structure Choice where
  text : String
deriving DecidableEq, Repr

/-- Rust `struct AIResponse { choices: Vec<Choice> }` from `src/lib.rs`. -/
structure AIResponse where
  choices : List Choice
deriving DecidableEq, Repr

/-- Rust `impl Display for AIResponse`: `self.choices.get(0).expect(..).text.trim()`.
The `expect` panic on an empty `choices` list is modelled as `none`. -/
def AIResponse.display (r : AIResponse) : Option String :=
  (r.choices.get? 0).map (fun ch => rustTrim ch.text)

/-- Rust `struct Config { api_key: Option<String> }` from `src/config.rs`. -/
structure Config where
  api_key : Option String
deriving DecidableEq, Repr

/-- Rust `struct ChatWithAI { c: Vec<String>, secrets: Config }` from `src/lib.rs`. -/
structure ChatWithAI where
  c : List String
  secrets : Config
deriving DecidableEq, Repr

/-- Constructor `ChatWithAI::new`: empty history, given secrets. -/
def ChatWithAI.new (secrets : Config) : ChatWithAI :=
  { c := [], secrets := secrets }

/-- Rust `slice::chunks(2)`: split a list into consecutive chunks of length 2,
the last chunk possibly of length 1; the empty slice yields no chunks. -/
def chunks2 {α : Type} : List α → List (List α)
  | [] => []
  | [a] => [[a]]
  | a :: b :: rest => [a, b] :: chunks2 rest

/-- The match inside `ChatWithAI::dialogue`'s `filter_map`:
`[h, a] => "You: {h}\nSky: {a}\n"`, `[h] => "You: {h}\nSky:"`, otherwise drop. -/
def renderChunk : List String → Option String
  | [h, a] => some ("You: " ++ h ++ "\nSky: " ++ a ++ "\n")
  | [h] => some ("You: " ++ h ++ "\nSky:")
  | _ => none

/-- Rust `Iterator::collect::<String>()`: concatenate the strings in order. -/
def concatStrings (l : List String) : String :=
  l.foldr (fun a b => a ++ b) ""

/-- Method `ChatWithAI::dialogue`: chunk the history two at a time, render each chunk,
and concatenate the rendered blocks. -/
def ChatWithAI.dialogue (st : ChatWithAI) : String :=
  concatStrings ((chunks2 st.c).filterMap renderChunk)

/-- The `PRELUDE` constant in `ChatWithAI::as_prompt`. -/
def PRELUDE : String :=
  "The following is a conversation between you and an AI assistant named Sky. Sky is helpful, creative, clever, and very friendly."

/-- Method `ChatWithAI::as_prompt`: `format!("{PRELUDE}\n{dialogue}")`. -/
def ChatWithAI.as_prompt (st : ChatWithAI) : String :=
  PRELUDE ++ "\n" ++ st.dialogue

/-- The JSON request body built in `ChatWithAI::say`.  The numeric literals of
the JSON text are represented exactly as rationals. -/
structure CompletionRequest where
  model : String
  prompt : String
  temperature : ℚ
  max_tokens : ℕ
  top_p : ℚ
  frequency_penalty : ℚ
  presence_penalty : ℚ
  stop : List String
deriving DecidableEq, Repr

/-- The `ureq::json!` body of `ChatWithAI::say`, built over the state reached
after pushing the utterance. -/
def ChatWithAI.buildRequest (st : ChatWithAI) : CompletionRequest :=
  { model := "text-davinci-003"
    prompt := st.as_prompt
    temperature := 0.9
    max_tokens := 150
    top_p := 1
    frequency_penalty := 0.0
    presence_penalty := 0.6
    stop := ["You:", "Sky:"] }

/-- Method `<ChatWithAI as Chat>::say`.  `oracle` is the parsed HTTP response body.
The first component is the request actually sent over the network (`none`
when the `api_key.expect` panic fires before the send); the second is the
returned response and the post-state (`none` on any panic). -/
def ChatWithAI.say (st : ChatWithAI) (text : String) (oracle : AIResponse) :
    Option CompletionRequest × Option (AIResponse × ChatWithAI) :=
  let st1 : ChatWithAI := { st with c := st.c ++ [text] }
  let req := st1.buildRequest
  match st.secrets.api_key with
  | none => (none, none)
  | some _ =>
    let res := oracle
    match res.display with
    | none => (some req, none)
    | some reply => (some req, some (res, { st1 with c := st1.c ++ [reply] }))

/-- The transcript file of `ReportingToFile`: the chunks successfully written,
in order, and the number of flushes performed. -/
structure FileState where
  written : List String
  flushes : ℕ
deriving DecidableEq, Repr

/-- Rust `struct ReportingToFile { chat: ChatWithAI, file: File }`. -/
structure ReportingToFile where
  chat : ChatWithAI
  file : FileState
deriving DecidableEq, Repr

/-- Method `<ReportingToFile as Chat>::say`: write the `You:` block (error ignored),
delegate, write the `Sky:` block (error ignored), flush (error ignored),
return the delegate's result.  `w1ok`, `w2ok`, `fok` are the success of the
two writes and the flush; a failed write appends nothing.  A panic in the
delegate (or in `res.to_string()`) aborts the turn (`none`). -/
def ReportingToFile.say (r : ReportingToFile) (text : String) (oracle : AIResponse)
    (w1ok w2ok fok : Bool) : Option (AIResponse × ReportingToFile) :=
  let written1 := if w1ok then r.file.written ++ ["\nYou: " ++ text ++ "\n"] else r.file.written
  match (r.chat.say text oracle).2 with
  | none => none
  | some (res, chat1) =>
    match res.display with
    | none => none
    | some reply =>
      let written2 := if w2ok then written1 ++ ["\nSky: " ++ reply ++ "\n"] else written1
      some (res, { chat := chat1, file := { written := written2, flushes := r.file.flushes + 1 } })

/-- The two shapes of client `chat_factory` can build. -/
inductive ChatClient where
  | plain : ChatWithAI → ChatClient
  | reporting : ReportingToFile → ChatClient
deriving DecidableEq

/-- Function `chat_factory` from `src/lib.rs`: with an absent `api_key` it panics
(`none`); otherwise it builds the bare client or the file-reporting decorator.
File creation is modelled by the given fresh `FileState`. -/
def chat_factory (cfg : Config) (report : Bool) (freshFile : FileState) : Option ChatClient :=
  match cfg.api_key with
  | some _ =>
    if report then
      some (.reporting { chat := ChatWithAI.new cfg, file := freshFile })
    else
      some (.plain (ChatWithAI.new cfg))
  | none => none

/-- Spec-side rendering of the history, written from the spec's words for the
refinement claim: pair entries two at a time in order; a complete pair
`(user, assistant)` emits `"You: {user}\nSky: {assistant}\n"`; a final unpaired
user entry emits `"You: {user}\nSky:"`; concatenate the blocks in order. -/
def specRenderBlocks : List String → String
  | [] => ""
  | [u] => "You: " ++ u ++ "\nSky:"
  | u :: a :: rest => ("You: " ++ u ++ "\nSky: " ++ a ++ "\n") ++ specRenderBlocks rest

theorem dialogue_eq_specRenderBlocks (c : List String) (secrets : Config) :
    ChatWithAI.dialogue { c := c, secrets := secrets } = specRenderBlocks c :=
  match c with
  | [] => rfl
  | [u] => by
    simp [ChatWithAI.dialogue, chunks2, renderChunk, concatStrings, specRenderBlocks,
      String.append_empty]
  | u :: a :: rest => by
    have ih := dialogue_eq_specRenderBlocks rest secrets
    simp only [ChatWithAI.dialogue, chunks2, specRenderBlocks, List.filterMap,
      renderChunk, concatStrings, List.foldr] at ih ⊢
    rw [ih]

/-- C1: for every history, the assembled prompt is the fixed preamble plus a
newline, followed by one rendered block per consecutive pair of entries
(complete pair `(u, a)` as `"You: {u}\nSky: {a}\n"`, final unpaired user entry
as `"You: {u}\nSky:"` with no trailing newline), concatenated in order; in
particular history `["hi"]` gives `"<preamble>\nYou: hi\nSky:"` and history
`["hi", "hello there"]` gives `"<preamble>\nYou: hi\nSky: hello there\n"`. -/
theorem prompt_assembly_matches_spec :
    (∀ st : ChatWithAI, st.as_prompt = PRELUDE ++ "\n" ++ specRenderBlocks st.c)
    ∧ ChatWithAI.as_prompt { c := ["hi"], secrets := { api_key := none } }
        = PRELUDE ++ "\nYou: hi\nSky:"
    ∧ ChatWithAI.as_prompt { c := ["hi", "hello there"], secrets := { api_key := none } }
        = PRELUDE ++ "\nYou: hi\nSky: hello there\n" := by
  refine ⟨fun st => ?_, by decide, by decide⟩
  obtain ⟨c, secrets⟩ := st
  rw [ChatWithAI.as_prompt, dialogue_eq_specRenderBlocks]

theorem say_success_elim {st : ChatWithAI} {text : String} {oracle res : AIResponse}
    {st1 : ChatWithAI} (h : (st.say text oracle).2 = some (res, st1)) :
    res = oracle ∧ ∃ reply, AIResponse.display oracle = some reply ∧
      st1.c = st.c ++ [text, reply] ∧ st1.secrets = st.secrets := by
  simp only [ChatWithAI.say] at h
  split at h
  · simp at h
  · split at h
    · simp at h
    · next reply hd =>
      simp only [Option.some.injEq, Prod.mk.injEq] at h
      obtain ⟨hres, hst⟩ := h
      subst hres
      subst hst
      exact ⟨rfl, reply, hd, by simp, rfl⟩

/-- C2: a successful `say` call leaves the history exactly two entries longer:
the first appended entry is the utterance and the second is the trimmed reply
(the value `AIResponse.display` extracts); all pre-existing entries are
unchanged. -/
theorem say_appends_two_entries (st : ChatWithAI) (text : String)
    (oracle res : AIResponse) (st1 : ChatWithAI)
    (h : (st.say text oracle).2 = some (res, st1)) :
    ∃ reply, AIResponse.display oracle = some reply ∧
      st1.c = st.c ++ [text, reply] ∧
      st1.c.length = st.c.length + 2 ∧
      ∀ i : ℕ, i < st.c.length → st1.c.get? i = st.c.get? i := by
  obtain ⟨-, reply, hd, hc, -⟩ := say_success_elim h
  refine ⟨reply, hd, hc, by simp [hc], fun i hi => ?_⟩
  rw [hc, List.get?_append hi]

theorem say_appends_two_entries_witness :
    ∃ reply,
      AIResponse.display { choices := [{ text := " ok " }] } = some reply ∧
      ({ c := ["hi", "ok"], secrets := { api_key := some "k" } } : ChatWithAI).c
        = ({ c := [], secrets := { api_key := some "k" } } : ChatWithAI).c ++ ["hi", reply] ∧
      ({ c := ["hi", "ok"], secrets := { api_key := some "k" } } : ChatWithAI).c.length
        = ({ c := [], secrets := { api_key := some "k" } } : ChatWithAI).c.length + 2 ∧
      ∀ i : ℕ, i < ({ c := [], secrets := { api_key := some "k" } } : ChatWithAI).c.length →
        ({ c := ["hi", "ok"], secrets := { api_key := some "k" } } : ChatWithAI).c.get? i
          = ({ c := [], secrets := { api_key := some "k" } } : ChatWithAI).c.get? i :=
  say_appends_two_entries { c := [], secrets := { api_key := some "k" } } "hi"
    { choices := [{ text := " ok " }] } { choices := [{ text := " ok " }] }
    { c := ["hi", "ok"], secrets := { api_key := some "k" } } (by decide)

/-- A string has no leading and no trailing whitespace character. -/
def noEdgeWhitespace (s : String) : Prop :=
  (∀ ch, s.data.head? = some ch → ch.isWhitespace = false) ∧
  (∀ ch, s.data.getLast? = some ch → ch.isWhitespace = false)

theorem rustTrim_noEdgeWhitespace (s : String) : noEdgeWhitespace (rustTrim s) := by
  constructor
  · intro ch hch
    simp only [rustTrim, List.head?_reverse] at hch
    obtain ⟨t, ht⟩ := List.dropWhile_suffix (l := (s.data.dropWhile Char.isWhitespace).reverse)
      Char.isWhitespace
    have hlast : (s.data.dropWhile Char.isWhitespace).reverse.getLast? = some ch := by
      rw [← ht, List.getLast?_append, hch]; rfl
    rw [List.getLast?_reverse] at hlast
    have hnot := List.head?_dropWhile_not Char.isWhitespace s.data
    rw [hlast] at hnot
    exact hnot
  · intro ch hch
    simp only [rustTrim, List.getLast?_reverse] at hch
    have hnot := List.head?_dropWhile_not Char.isWhitespace
      (s.data.dropWhile Char.isWhitespace).reverse
    rw [hch] at hnot
    exact hnot

/-- C3: the reply a successful `say` returns to the caller (its `Display`
rendering, which is what both the REPL and the history see) has no leading or
trailing whitespace, even when the first candidate text has some; e.g. raw
`"  hello  "` yields reply `"hello"`. -/
theorem say_reply_no_edge_whitespace :
    (∀ (st : ChatWithAI) (text : String) (oracle res : AIResponse) (st1 : ChatWithAI),
      (st.say text oracle).2 = some (res, st1) →
        ∃ r, AIResponse.display res = some r ∧ noEdgeWhitespace r)
    ∧ AIResponse.display { choices := [{ text := "  hello  " }] } = some "hello" := by
  constructor
  · intro st text oracle res st1 h
    obtain ⟨hres, reply, hd, -, -⟩ := say_success_elim h
    subst hres
    obtain ⟨ch0, hch0⟩ : ∃ ch0, res.choices.get? 0 = some ch0 := by
      rcases hg : res.choices.get? 0 with - | ch0
      · rw [AIResponse.display, hg] at hd; simp at hd
      · exact ⟨ch0, rfl⟩
    refine ⟨rustTrim ch0.text, ?_, rustTrim_noEdgeWhitespace ch0.text⟩
    rw [AIResponse.display, hch0]; rfl
  · decide

theorem say_reply_no_edge_whitespace_witness :
    ∃ r, AIResponse.display { choices := [{ text := "  hello  " }] } = some r
      ∧ noEdgeWhitespace r :=
  say_reply_no_edge_whitespace.1
    { c := [], secrets := { api_key := some "k" } } "hi"
    { choices := [{ text := "  hello  " }] } { choices := [{ text := "  hello  " }] }
    { c := ["hi", "hello"], secrets := { api_key := some "k" } } (by decide)

/-- C4: with the API key absent, `chat_factory` rejects the configuration
(panics) before constructing any client, and `say` on a keyless client fails
with no request sent over the network; the single evaluation has no retry. -/
theorem missing_key_fails_before_network :
    (∀ (report : Bool) (freshFile : FileState),
      chat_factory { api_key := none } report freshFile = none)
    ∧ (∀ (st : ChatWithAI) (text : String) (oracle : AIResponse),
      st.secrets.api_key = none → st.say text oracle = (none, none)) := by
  constructor
  · intro report freshFile
    rfl
  · intro st text oracle hk
    simp only [ChatWithAI.say, hk]

theorem missing_key_fails_before_network_witness :
    ({ c := [], secrets := { api_key := none } } : ChatWithAI).secrets.api_key = none ∧
    ChatWithAI.say { c := [], secrets := { api_key := none } } "hi"
      { choices := [{ text := "ok" }] } = (none, none) :=
  ⟨rfl, missing_key_fails_before_network.2
    { c := [], secrets := { api_key := none } } "hi"
    { choices := [{ text := "ok" }] } rfl⟩

/-- C5: reply extraction reads only the first element of `choices`: an empty
list hits the fatal `expect` (modelled `none`), and a non-empty list always
yields the trimmed text of its head, so the fatal branch is never reached. -/
theorem display_uses_only_first_choice :
    (∀ r : AIResponse, r.choices = [] → AIResponse.display r = none)
    ∧ (∀ (ch : Choice) (rest : List Choice),
      AIResponse.display { choices := ch :: rest } = some (rustTrim ch.text)) := by
  constructor
  · intro r hr
    simp [AIResponse.display, hr]
  · intro ch rest
    rfl

theorem display_uses_only_first_choice_witness :
    ({ choices := [] } : AIResponse).choices = [] ∧
    AIResponse.display { choices := [] } = none :=
  ⟨rfl, display_uses_only_first_choice.1 { choices := [] } rfl⟩

theorem say_request_eq {st : ChatWithAI} {text : String} {oracle : AIResponse}
    {req : CompletionRequest} (h : (st.say text oracle).1 = some req) :
    req = ChatWithAI.buildRequest { c := st.c ++ [text], secrets := st.secrets } := by
  simp only [ChatWithAI.say] at h
  split at h
  · simp at h
  · split at h <;> · simp only [Option.some.injEq] at h; exact h.symm

/-- C6: every request `say` actually sends has the fixed model id, temperature
0.9, max tokens 150, top-p 1, frequency penalty 0, presence penalty 0.6, stop
sequences `["You:", "Sky:"]`, and prompt equal to the assembler output over
the history including the just-appended utterance; only the prompt depends on
the state. -/
theorem say_request_fields (st : ChatWithAI) (text : String) (oracle : AIResponse)
    (req : CompletionRequest) (h : (st.say text oracle).1 = some req) :
    req.model = "text-davinci-003" ∧
    req.temperature = 0.9 ∧
    req.max_tokens = 150 ∧
    req.top_p = 1 ∧
    req.frequency_penalty = 0 ∧
    req.presence_penalty = 0.6 ∧
    req.stop = ["You:", "Sky:"] ∧
    req.prompt = ChatWithAI.as_prompt { c := st.c ++ [text], secrets := st.secrets } := by
  have hreq := say_request_eq h
  subst hreq
  refine ⟨rfl, rfl, rfl, rfl, ?_, rfl, rfl, rfl⟩
  show (0.0 : ℚ) = 0
  norm_num

theorem say_request_fields_witness :
    (ChatWithAI.say { c := [], secrets := { api_key := some "k" } } "hi"
        { choices := [{ text := "ok" }] }).1
      = some (ChatWithAI.buildRequest { c := ["hi"], secrets := { api_key := some "k" } }) ∧
    (ChatWithAI.buildRequest { c := ["hi"], secrets := { api_key := some "k" } }).model
      = "text-davinci-003" ∧
    (ChatWithAI.buildRequest { c := ["hi"], secrets := { api_key := some "k" } }).prompt
      = ChatWithAI.as_prompt { c := [] ++ ["hi"], secrets := { api_key := some "k" } } := by
  refine ⟨rfl, ?_, ?_⟩
  · exact (say_request_fields { c := [], secrets := { api_key := some "k" } } "hi"
      { choices := [{ text := "ok" }] }
      (ChatWithAI.buildRequest { c := ["hi"], secrets := { api_key := some "k" } })
      rfl).1
  · exact (say_request_fields { c := [], secrets := { api_key := some "k" } } "hi"
      { choices := [{ text := "ok" }] }
      (ChatWithAI.buildRequest { c := ["hi"], secrets := { api_key := some "k" } })
      rfl).2.2.2.2.2.2.2

/-- C7: the transcript decorator writes the `You:` block before delegating and
the `Sky:` block after, and flushes once per turn; a failed write or flush
never fails the turn — the delegate's reply is returned and the chat state is
exactly the delegate's, whatever the error flags. -/
theorem reporting_say_behavior (r : ReportingToFile) (text : String)
    (oracle res : AIResponse) (chat1 : ChatWithAI)
    (h : (r.chat.say text oracle).2 = some (res, chat1)) :
    ∀ w1ok w2ok fok : Bool, ∃ reply, AIResponse.display res = some reply ∧
      r.say text oracle w1ok w2ok fok = some (res,
        { chat := chat1,
          file := { written := r.file.written
                      ++ (if w1ok then ["\nYou: " ++ text ++ "\n"] else [])
                      ++ (if w2ok then ["\nSky: " ++ reply ++ "\n"] else []),
                    flushes := r.file.flushes + 1 } }) := by
  intro w1ok w2ok fok
  obtain ⟨hres, reply, hd, -, -⟩ := say_success_elim h
  subst hres
  refine ⟨reply, hd, ?_⟩
  simp only [ReportingToFile.say, h, hd]
  cases w1ok <;> cases w2ok <;> simp

theorem reporting_say_behavior_witness :
    (ChatWithAI.say { c := [], secrets := { api_key := some "k" } } "ping"
        { choices := [{ text := "ok" }] }).2
      = some ({ choices := [{ text := "ok" }] },
          { c := ["ping", "ok"], secrets := { api_key := some "k" } }) ∧
    ∃ reply, AIResponse.display { choices := [{ text := "ok" }] } = some reply ∧
      ReportingToFile.say
          { chat := { c := [], secrets := { api_key := some "k" } },
            file := { written := [], flushes := 0 } }
          "ping" { choices := [{ text := "ok" }] } true true true
        = some ({ choices := [{ text := "ok" }] },
            { chat := { c := ["ping", "ok"], secrets := { api_key := some "k" } },
              file := { written := []
                          ++ (if true then ["\nYou: " ++ "ping" ++ "\n"] else [])
                          ++ (if true then ["\nSky: " ++ reply ++ "\n"] else []),
                        flushes := 0 + 1 } }) :=
  ⟨by decide, reporting_say_behavior
    { chat := { c := [], secrets := { api_key := some "k" } },
      file := { written := [], flushes := 0 } }
    "ping" { choices := [{ text := "ok" }] } { choices := [{ text := "ok" }] }
    { c := ["ping", "ok"], secrets := { api_key := some "k" } } (by decide) true true true⟩

/-- C8: prompt assembly is a pure, deterministic function of the history: two
client states with identical histories yield identical prompts (notably
independent of the secrets), and, `as_prompt` and `dialogue` being plain
functions of the state with no state output (the Rust methods take `&self`),
assembling a prompt modifies neither the history nor any other client state. -/
theorem as_prompt_deterministic (st1 st2 : ChatWithAI) (h : st1.c = st2.c) :
    st1.as_prompt = st2.as_prompt := by
  obtain ⟨c1, s1⟩ := st1
  obtain ⟨c2, s2⟩ := st2
  simp only at h
  subst h
  rw [ChatWithAI.as_prompt, ChatWithAI.as_prompt,
    dialogue_eq_specRenderBlocks, dialogue_eq_specRenderBlocks]

theorem as_prompt_deterministic_witness :
    ({ c := ["hi"], secrets := { api_key := some "a" } } : ChatWithAI).c
      = ({ c := ["hi"], secrets := { api_key := none } } : ChatWithAI).c ∧
    ChatWithAI.as_prompt { c := ["hi"], secrets := { api_key := some "a" } }
      = ChatWithAI.as_prompt { c := ["hi"], secrets := { api_key := none } } :=
  ⟨rfl, as_prompt_deterministic
    { c := ["hi"], secrets := { api_key := some "a" } }
    { c := ["hi"], secrets := { api_key := none } } rfl⟩

/-- Client states reachable from `ChatWithAI::new` by successful `say` calls. -/
inductive ReachableChat : ChatWithAI → Prop where
  | init (cfg : Config) : ReachableChat (ChatWithAI.new cfg)
  | step (st : ChatWithAI) (text : String) (oracle res : AIResponse) (st1 : ChatWithAI) :
      ReachableChat st → (st.say text oracle).2 = some (res, st1) → ReachableChat st1

theorem specRenderBlocks_append_open (u : String) :
    ∀ (c : List String), c.length % 2 = 0 →
      specRenderBlocks (c ++ [u]) = specRenderBlocks c ++ ("You: " ++ u ++ "\nSky:")
  | [], _ => by simp [specRenderBlocks]
  | [a], h => by simp at h
  | a :: b :: rest, h => by
    have hrest : rest.length % 2 = 0 := by simp [List.length_cons] at h; omega
    have ih := specRenderBlocks_append_open u rest hrest
    simp only [List.cons_append, List.append_eq, specRenderBlocks]
    rw [ih, ← String.append_assoc]

/-- C9: every state reachable by successful `say` calls from a fresh client
has even history length, so at request-build time the history with the
just-appended utterance has odd length and every prompt actually sent ends
with the open cue `"You: {utterance}\nSky:"`, never with a completed
assistant block. -/
theorem reachable_history_even_and_prompt_open (st : ChatWithAI)
    (hr : ReachableChat st) :
    st.c.length % 2 = 0 ∧
    ∀ (text : String) (oracle : AIResponse) (req : CompletionRequest),
      (st.say text oracle).1 = some req →
        ∃ p, req.prompt = p ++ ("You: " ++ text ++ "\nSky:") := by
  have heven : st.c.length % 2 = 0 := by
    induction hr with
    | init cfg => rfl
    | step st0 text oracle res st1 hre h ih =>
      obtain ⟨-, reply, -, hc, -⟩ := say_success_elim h
      simp only [hc, List.length_append, List.length_cons, List.length_nil]
      omega
  refine ⟨heven, fun text oracle req h => ?_⟩
  have hreq := say_request_eq h
  subst hreq
  refine ⟨PRELUDE ++ "\n" ++ specRenderBlocks st.c, ?_⟩
  show ChatWithAI.as_prompt { c := st.c ++ [text], secrets := st.secrets } = _
  show PRELUDE ++ "\n" ++ ChatWithAI.dialogue { c := st.c ++ [text], secrets := st.secrets } = _
  rw [dialogue_eq_specRenderBlocks, specRenderBlocks_append_open text st.c heven,
    ← String.append_assoc]

theorem reachable_history_even_and_prompt_open_witness :
    (ChatWithAI.new { api_key := some "k" }).c.length % 2 = 0 ∧
    ∀ (text : String) (oracle : AIResponse) (req : CompletionRequest),
      ((ChatWithAI.new { api_key := some "k" }).say text oracle).1 = some req →
        ∃ p, req.prompt = p ++ ("You: " ++ text ++ "\nSky:") :=
  reachable_history_even_and_prompt_open (ChatWithAI.new { api_key := some "k" })
    (ReachableChat.init { api_key := some "k" })

theorem chunks2_mem_length {α : Type} :
    ∀ (c : List α) (ch : List α), ch ∈ chunks2 c → ch.length = 1 ∨ ch.length = 2
  | [], ch, h => by simp [chunks2] at h
  | [a], ch, h => by
    simp only [chunks2, List.mem_singleton] at h
    subst h
    simp
  | a :: b :: rest, ch, h => by
    simp only [chunks2, List.mem_cons] at h
    rcases h with h | h
    · subst h; simp
    · exact chunks2_mem_length rest ch h

theorem chunks2_flatten {α : Type} : ∀ c : List α, (chunks2 c).flatten = c
  | [] => rfl
  | [a] => rfl
  | a :: b :: rest => by
    simp only [chunks2, List.flatten_cons, List.cons_append, List.nil_append]
    rw [chunks2_flatten rest]

/-- C10: the dialogue renderer drops nothing: chunking the history two at a
time yields only chunks of length 1 or 2, flattening the chunks restores the
history exactly (every entry appears once, in order), and the catch-all
branch of the renderer that would discard a chunk is unreachable. -/
theorem chunks2_covers_history :
    (∀ (c ch : List String), ch ∈ chunks2 c → ch.length = 1 ∨ ch.length = 2)
    ∧ (∀ c : List String, (chunks2 c).flatten = c)
    ∧ (∀ (c ch : List String), ch ∈ chunks2 c → renderChunk ch ≠ none) := by
  refine ⟨fun c ch h => chunks2_mem_length c ch h, fun c => chunks2_flatten c,
    fun c ch h => ?_⟩
  rcases chunks2_mem_length c ch h with h1 | h2
  · obtain ⟨x, hx⟩ := List.length_eq_one.mp h1
    subst hx
    simp [renderChunk]
  · obtain ⟨x, y, hxy⟩ := List.length_eq_two.mp h2
    subst hxy
    simp [renderChunk]

theorem chunks2_covers_history_witness :
    (["c"] ∈ chunks2 ["a", "b", "c"]) ∧
    (["c"].length = 1 ∨ ["c"].length = 2) ∧
    (chunks2 ["a", "b", "c"]).flatten = ["a", "b", "c"] ∧
    renderChunk ["c"] ≠ none :=
  ⟨by decide, chunks2_covers_history.1 ["a", "b", "c"] ["c"] (by decide),
    chunks2_covers_history.2.1 ["a", "b", "c"],
    chunks2_covers_history.2.2 ["a", "b", "c"] ["c"] (by decide)⟩

end Sky
